import Mathlib

/-!
Shallow embedding of the `api_server` storage layer (`src/db_utils.py`,
class `Database`) and of the token-derivation / token-resolution code of
the handler layer (`src/challenge.py`).

The SQLite tables are modelled as Lean lists kept in insertion (rowid)
order: the tables are append-only (no DELETE/UPDATE anywhere in the
source), so a `SELECT` without `ORDER BY` scans rows in insertion order,
`fetchone` returns the first matching row, and `LIMIT start, limit`
is drop/take on the filtered row sequence.  Python exceptions are
modelled with `Except`; operations that mutate the store also return the
post-state (unchanged when they raise).  `datetime.utcnow()` is an
input: callers pass the timestamp string explicitly.
-/

/-- Python exceptions that the embedded code can raise.
`invalidMessageType` stands for the explicit
`raise Exception("Invalid message type\n")` in `Database.add_message`. -/
inductive PyError where
  | valueError
  | keyError
  | assertionError
  | integrityError
  | invalidMessageType
deriving DecidableEq, Repr

/-- A row of the `users` table: `(u_id, username, auth_token)`. -/
structure UserRow where
  u_id : Nat
  username : String
  auth_token : String
deriving DecidableEq, Repr

/-- A row of the `messages` table.  Columns that the schema allows to be
NULL (`msg_text`, `img_height`, `img_width`, `url`, `vid_source`) are
`Option`s. -/
structure MsgRow where
  msg_id : Nat
  sender : Int
  recipient : Int
  msg_type : String
  msg_text : Option String
  img_height : Option Int
  img_width : Option Int
  url : Option String
  vid_source : Option String
  timestamp : String
deriving DecidableEq, Repr

/-- The state of a `Database` object: the two tables plus the two
in-memory id counters `self.user_count` and `self.msg_count`. -/
structure DB where
  users : List UserRow
  messages : List MsgRow
  user_count : Nat
  msg_count : Nat
deriving DecidableEq, Repr

/-- `commit_frequency = 20` from `db_utils.py`: the store commits once
every N users and once every N messages. -/
def commit_frequency : Nat := 20

/-- `Database.__init__` seeds the two counters by counting existing rows
(`SELECT COUNT(*)`). -/
def initDB (us : List UserRow) (ms : List MsgRow) : DB :=
  { users := us, messages := ms, user_count := us.length, msg_count := ms.length }

/-- Python `str.split()` with no separator: split on runs of whitespace,
dropping empty pieces.  `acc` holds the current word reversed. -/
def wordsAux : List Char → List Char → List (List Char)
  | [], [] => []
  | [], acc => [acc.reverse]
  | c :: cs, acc =>
    if c.isWhitespace then
      match acc with
      | [] => wordsAux cs []
      | _ => acc.reverse :: wordsAux cs []
    else wordsAux cs (c :: acc)

/-- `s.split()` in Python. -/
def pySplit (s : String) : List String :=
  (wordsAux s.toList []).map List.asString

/-- Python `str.lower()` (character-wise lowering). -/
def pyLower (s : String) : String :=
  (s.toList.map Char.toLower).asString

/-- `SELECT auth_token FROM users WHERE u_id=? ... fetchone()`: the first
row (in insertion order) whose `u_id` matches. -/
def findUser (db : DB) (u_id : Nat) : Option UserRow :=
  db.users.find? (fun r => r.u_id == u_id)

/-- `Database.authenticate(u_id, auth)`.  `auth == None` returns `False`;
`auth_type, token = auth.split()` raises `ValueError` unless the header
splits into exactly two words; a scheme other than (case-insensitive)
`bearer` returns `False`; otherwise the stored token for `u_id` is
compared with the presented one (`False` when the user id is unknown). -/
def authenticate (db : DB) (u_id : Nat) (auth : Option String) :
    Except PyError Bool :=
  match auth with
  | none => .ok false
  | some a =>
    match pySplit a with
    | [auth_type, token] =>
      if pyLower auth_type != "bearer" then .ok false
      else
        match findUser db u_id with
        | none => .ok false
        | some row => .ok (row.auth_token == token)
    | _ => .error .valueError

/-- `Database.add_user(user, token)`: `u_id = self.user_count`; the
`INSERT` raises `IntegrityError` when the username already exists
(UNIQUE constraint), leaving the state unchanged; on success the counter
is incremented and the connection commits exactly when the new counter
is divisible by `commit_frequency`.  Returns `(u_id, did_commit)` paired
with the post-state. -/
def add_user (db : DB) (user token : String) :
    Except PyError (Nat × Bool) × DB :=
  if db.users.any (fun r => r.username == user) then
    (.error .integrityError, db)
  else
    let u_id := db.user_count
    let db' : DB :=
      { db with
        users := db.users ++ [⟨u_id, user, token⟩],
        user_count := db.user_count + 1 }
    (.ok (u_id, (db.user_count + 1) % commit_frequency == 0), db')

/-- The `content` dictionary of a message request body: a `type` tag and
the optional variant fields; a `none` field is an absent dictionary key,
so reading it raises `KeyError`. -/
structure ContentDict where
  type : String
  text : Option String
  url : Option String
  height : Option Int
  width : Option Int
  source : Option String
deriving DecidableEq, Repr

/-- A message request body: `body["sender"]`, `body["recipient"]`,
`body["content"]`. -/
structure MsgBody where
  sender : Int
  recipient : Int
  content : ContentDict
deriving DecidableEq, Repr

/-- `Database.add_message(body)` (timestamp passed explicitly in place
of `datetime.utcnow()`): assigns `msg_id = self.msg_count`, inserts the
row for the given content variant, increments the counter and commits
exactly when the new counter is divisible by `commit_frequency`.
Reading a missing content field raises `KeyError`; an unrecognized
`type` raises the explicit "Invalid message type" exception.  Every
failure happens before the insert, so the state is returned unchanged.
Returns `(msg_id, timestamp, did_commit)` paired with the post-state. -/
def add_message (db : DB) (body : MsgBody) (timestamp : String) :
    Except PyError (Nat × String × Bool) × DB :=
  let msg_id := db.msg_count
  let c := body.content
  let insert : MsgRow → Except PyError (Nat × String × Bool) × DB :=
    fun row =>
      (.ok (msg_id, timestamp, (db.msg_count + 1) % commit_frequency == 0),
       { db with
         messages := db.messages ++ [row],
         msg_count := db.msg_count + 1 })
  if c.type == "text" then
    match c.text with
    | none => (.error .keyError, db)
    | some text =>
      insert ⟨msg_id, body.sender, body.recipient, c.type,
              some text, none, none, none, none, timestamp⟩
  else if c.type == "image" then
    match c.url, c.height, c.width with
    | some url, some height, some width =>
      insert ⟨msg_id, body.sender, body.recipient, c.type,
              none, some height, some width, some url, none, timestamp⟩
    | _, _, _ => (.error .keyError, db)
  else if c.type == "video" then
    match c.url, c.source with
    | some url, some source =>
      insert ⟨msg_id, body.sender, body.recipient, c.type,
              none, none, none, some url, some source, timestamp⟩
    | _, _ => (.error .keyError, db)
  else
    (.error .invalidMessageType, db)

/-- The type-tagged `content` object produced when listing messages. -/
inductive Content where
  | text (text : Option String)
  | image (url : Option String) (height : Option Int) (width : Option Int)
  | video (url : Option String) (source : Option String)
deriving DecidableEq, Repr

/-- An entry of the `{"messages": [...]}` response:
`{id, timestamp, sender, recipient, content}`. -/
structure ParsedMsg where
  id : Nat
  timestamp : String
  sender : Int
  recipient : Int
  content : Content
deriving DecidableEq, Repr

/-- The body of the parsing loop of `Database.get_messages`: builds the
variant `content` from the row; a row whose type is none of the three
variants fails the `assert(msg_type == "video")`. -/
def parseRow (m : MsgRow) : Except PyError ParsedMsg :=
  if m.msg_type == "text" then
    .ok ⟨m.msg_id, m.timestamp, m.sender, m.recipient, .text m.msg_text⟩
  else if m.msg_type == "image" then
    .ok ⟨m.msg_id, m.timestamp, m.sender, m.recipient,
         .image m.url m.img_height m.img_width⟩
  else if m.msg_type == "video" then
    .ok ⟨m.msg_id, m.timestamp, m.sender, m.recipient,
         .video m.url m.vid_source⟩
  else .error .assertionError

/-- `Database.get_messages(recipient, start, limit)`:
`SELECT * FROM messages WHERE recipient=? LIMIT start, limit` over the
append-only table is drop/take on the rows matching the recipient, in
insertion order; the fetched rows are then parsed one by one. -/
def get_messages (db : DB) (recipient : Int) (start limit : Nat) :
    Except PyError (List ParsedMsg) :=
  ((((db.messages.filter (fun m => m.recipient == recipient)).drop
      start).take limit).mapM parseRow)

/-- `Database.user_lookup(user, token)`:
`SELECT u_id, auth_token FROM users WHERE username=? AND auth_token=?`,
`fetchone`. -/
def user_lookup (db : DB) (user token : String) : Option (Nat × String) :=
  (db.users.find? (fun r => r.username == user && r.auth_token == token)).map
    (fun r => (r.u_id, r.auth_token))

/-- `Handler.handle_new_user` token derivation in `challenge.py`:
`md5((password + "salt").encode()).hexdigest()`.  The hash itself is an
external library primitive, so it is a parameter `h`: every theorem
below holds for an arbitrary `h`, in particular for md5. -/
def newUserToken (h : String → String) (password : String) : String :=
  h (password ++ "salt")

/-- `Handler.handle_new_user` (challenge.py): derives the token from the
password alone, takes `u_id = SELECT COUNT(*) FROM users`, and inserts;
a duplicate username makes the `INSERT` raise, which the bare `except`
turns into a "User already exists" response, modelled as `.error ()`. -/
def handle_new_user (h : String → String) (db : DB)
    (user password : String) : Except Unit (Nat × DB) :=
  let token := newUserToken h password
  let u_id := db.users.length
  if db.users.any (fun r => r.username == user) then .error ()
  else
    .ok (u_id,
      { db with users := db.users ++ [⟨u_id, user, token⟩] })

/-- `Handler.check_authorization` (challenge.py): resolves the presented
bearer token to a principal via
`SELECT u_id FROM users WHERE auth_token=? ... fetchone()` — the first
user (in insertion order) holding that token.  A missing header or a
non-bearer scheme leaves the principal `none`; a header that does not
split into exactly two words raises `ValueError`. -/
def check_authorization (db : DB) (header : Option String) :
    Except PyError (Option Nat) :=
  match header with
  | none => .ok none
  | some a =>
    match pySplit a with
    | [auth_type, token] =>
      if pyLower auth_type != "bearer" then .ok none
      else .ok ((db.users.find? (fun r => r.auth_token == token)).map
                  (fun r => r.u_id))
    | _ => .error .valueError

/-! ### Facts about `pySplit` -/

/-- A single Python word: nonempty and free of whitespace.  Auth tokens
produced by the handler are md5 hex digests, hence words. -/
def isWord (s : String) : Bool :=
  !s.toList.isEmpty && s.toList.all (fun c => !c.isWhitespace)

theorem isWord_iff (s : String) :
    isWord s = true ↔ s.toList ≠ [] ∧ ∀ c ∈ s.toList, c.isWhitespace = false := by
  simp [isWord, List.isEmpty_iff]

theorem wordsAux_append (cs : List Char) :
    ∀ acc rest, (∀ c ∈ cs, c.isWhitespace = false) →
      wordsAux (cs ++ rest) acc = wordsAux rest (cs.reverse ++ acc) := by
  induction cs with
  | nil => intro acc rest _; simp
  | cons c cs ih =>
    intro acc rest h
    have hc : c.isWhitespace = false := h c (List.mem_cons_self c cs)
    have hcs : ∀ d ∈ cs, d.isWhitespace = false :=
      fun d hd => h d (List.mem_cons_of_mem c hd)
    simp [wordsAux, hc, ih (c :: acc) rest hcs]

theorem wordsAux_single (cs : List Char) :
    ∀ acc, (∀ c ∈ cs, c.isWhitespace = false) → acc ≠ [] →
      wordsAux cs acc = [acc.reverse ++ cs] := by
  induction cs with
  | nil =>
    intro acc _ hacc
    match acc, hacc with
    | a :: as, _ => simp [wordsAux]
  | cons c cs ih =>
    intro acc h hacc
    have hc : c.isWhitespace = false := h c (List.mem_cons_self c cs)
    have hcs : ∀ d ∈ cs, d.isWhitespace = false :=
      fun d hd => h d (List.mem_cons_of_mem c hd)
    simp [wordsAux, hc, ih (c :: acc) hcs (by simp)]

theorem wordsAux_word (cs : List Char) (hne : cs ≠ [])
    (h : ∀ c ∈ cs, c.isWhitespace = false) : wordsAux cs [] = [cs] := by
  match cs, hne with
  | c :: cs, _ =>
    have hc : c.isWhitespace = false := h c (List.mem_cons_self c cs)
    have hcs : ∀ d ∈ cs, d.isWhitespace = false :=
      fun d hd => h d (List.mem_cons_of_mem c hd)
    simp [wordsAux, hc, wordsAux_single cs [c] hcs (by simp)]

theorem wordsAux_space_cons (acc rest : List Char) (hacc : acc ≠ []) :
    wordsAux (' ' :: rest) acc = acc.reverse :: wordsAux rest [] := by
  have hsp : (' ').isWhitespace = true := rfl
  match acc, hacc with
  | a :: as, _ => simp [wordsAux, hsp]

theorem pySplit_word (t : String) (ht : isWord t = true) : pySplit t = [t] := by
  obtain ⟨h1, h2⟩ := (isWord_iff t).mp ht
  show (wordsAux t.toList []).map List.asString = [t]
  rw [wordsAux_word t.toList h1 h2]
  rfl

theorem pySplit_scheme_word (w t : String) (hw : isWord w = true)
    (ht : isWord t = true) : pySplit (w ++ " " ++ t) = [w, t] := by
  obtain ⟨hw1, hw2⟩ := (isWord_iff w).mp hw
  obtain ⟨ht1, ht2⟩ := (isWord_iff t).mp ht
  have hstep : (w ++ " " ++ t).toList = (w.toList ++ [' ']) ++ t.toList := rfl
  have hlist : (w ++ " " ++ t).toList = w.toList ++ (' ' :: t.toList) := by
    rw [hstep, List.append_assoc]; rfl
  have hrev : w.toList.reverse ≠ [] := by simpa using hw1
  rw [pySplit, hlist, wordsAux_append w.toList [] (' ' :: t.toList) hw2,
      List.append_nil, wordsAux_space_cons _ _ hrev,
      wordsAux_word t.toList ht1 ht2]
  simp only [List.map_cons, List.map_nil, List.reverse_reverse]
  rfl

/-! ### Basic facts about the store operations -/

theorem add_user_fresh (db : DB) (user token : String)
    (h : db.users.any (fun r => r.username == user) = false) :
    add_user db user token =
      (.ok (db.user_count, (db.user_count + 1) % commit_frequency == 0),
       { db with users := db.users ++ [⟨db.user_count, user, token⟩],
                 user_count := db.user_count + 1 }) := by
  simp [add_user, h]

theorem add_user_ok (db : DB) (user token : String) (id : Nat) (flag : Bool)
    (db' : DB) (h : add_user db user token = (.ok (id, flag), db')) :
    db.users.any (fun r => r.username == user) = false ∧
    id = db.user_count ∧
    flag = ((db.user_count + 1) % commit_frequency == 0) ∧
    db' = { db with users := db.users ++ [⟨db.user_count, user, token⟩],
                    user_count := db.user_count + 1 } := by
  by_cases hdup : db.users.any (fun r => r.username == user) = true
  · simp [add_user, hdup] at h
  · have hf : db.users.any (fun r => r.username == user) = false := by
      simpa using hdup
    rw [add_user_fresh db user token hf, Prod.mk.injEq] at h
    obtain ⟨hl, hr⟩ := h
    rw [Except.ok.injEq, Prod.mk.injEq] at hl
    exact ⟨hf, hl.1.symm, hl.2.symm, hr.symm⟩

theorem add_user_err (db : DB) (user token : String) (e : PyError)
    (db' : DB) (h : add_user db user token = (.error e, db')) :
    db.users.any (fun r => r.username == user) = true ∧
    e = .integrityError ∧ db' = db := by
  by_cases hdup : db.users.any (fun r => r.username == user) = true
  · simp only [add_user, hdup, if_true, Prod.mk.injEq] at h
    obtain ⟨hl, hr⟩ := h
    rw [Except.error.injEq] at hl
    exact ⟨hdup, hl.symm, hr.symm⟩
  · have hf : db.users.any (fun r => r.username == user) = false := by
      simpa using hdup
    rw [add_user_fresh db user token hf] at h
    simp at h

theorem add_message_text (db : DB) (body : MsgBody) (ts text : String)
    (hty : body.content.type = "text") (htx : body.content.text = some text) :
    add_message db body ts =
      (.ok (db.msg_count, ts, (db.msg_count + 1) % commit_frequency == 0),
       { db with
         messages := db.messages ++
           [⟨db.msg_count, body.sender, body.recipient, "text",
             some text, none, none, none, none, ts⟩],
         msg_count := db.msg_count + 1 }) := by
  simp [add_message, hty, htx]

theorem add_message_ok (db : DB) (body : MsgBody) (ts : String)
    (id : Nat) (ts' : String) (flag : Bool) (db' : DB)
    (h : add_message db body ts = (.ok (id, ts', flag), db')) :
    id = db.msg_count ∧ ts' = ts ∧
    flag = ((db.msg_count + 1) % commit_frequency == 0) ∧
    db'.users = db.users ∧ db'.user_count = db.user_count ∧
    db'.msg_count = db.msg_count + 1 ∧
    ∃ row, row.msg_id = db.msg_count ∧ row.sender = body.sender ∧
      row.recipient = body.recipient ∧ row.timestamp = ts ∧
      db'.messages = db.messages ++ [row] := by
  by_cases h1 : (body.content.type == "text") = true
  · cases htx : body.content.text with
    | none => simp [add_message, h1, htx] at h
    | some text =>
      simp only [add_message, h1, htx, if_true, Prod.mk.injEq,
        Except.ok.injEq] at h
      obtain ⟨⟨hid, hts, hflag⟩, hdb⟩ := h
      subst hdb
      exact ⟨hid.symm, hts.symm, hflag.symm, rfl, rfl, rfl,
        ⟨_, rfl, rfl, rfl, rfl, rfl⟩⟩
  · by_cases h2 : (body.content.type == "image") = true
    · cases hu : body.content.url with
      | none => simp [add_message, h1, h2, hu] at h
      | some url =>
        cases hh : body.content.height with
        | none => simp [add_message, h1, h2, hu, hh] at h
        | some height =>
          cases hw : body.content.width with
          | none => simp [add_message, h1, h2, hu, hh, hw] at h
          | some width =>
            simp only [add_message, h1, h2, hu, hh, hw, if_true, if_false,
              Bool.false_eq_true, Prod.mk.injEq, Except.ok.injEq] at h
            obtain ⟨⟨hid, hts, hflag⟩, hdb⟩ := h
            subst hdb
            exact ⟨hid.symm, hts.symm, hflag.symm, rfl, rfl, rfl,
              ⟨_, rfl, rfl, rfl, rfl, rfl⟩⟩
    · by_cases h3 : (body.content.type == "video") = true
      · cases hu : body.content.url with
        | none => simp [add_message, h1, h2, h3, hu] at h
        | some url =>
          cases hs : body.content.source with
          | none => simp [add_message, h1, h2, h3, hu, hs] at h
          | some source =>
            simp only [add_message, h1, h2, h3, hu, hs, if_true, if_false,
              Bool.false_eq_true, Prod.mk.injEq, Except.ok.injEq] at h
            obtain ⟨⟨hid, hts, hflag⟩, hdb⟩ := h
            subst hdb
            exact ⟨hid.symm, hts.symm, hflag.symm, rfl, rfl, rfl,
              ⟨_, rfl, rfl, rfl, rfl, rfl⟩⟩
      · simp [add_message, h1, h2, h3] at h

theorem add_message_err (db : DB) (body : MsgBody) (ts : String)
    (e : PyError) (db' : DB)
    (h : add_message db body ts = (.error e, db')) : db' = db := by
  by_cases h1 : (body.content.type == "text") = true
  · cases htx : body.content.text with
    | none =>
      simp only [add_message, h1, htx, if_true, Prod.mk.injEq] at h
      exact h.2.symm
    | some text => simp [add_message, h1, htx] at h
  · by_cases h2 : (body.content.type == "image") = true
    · cases hu : body.content.url with
      | none =>
        simp only [add_message, h1, h2, hu, if_true, if_false,
          Bool.false_eq_true, Prod.mk.injEq] at h
        exact h.2.symm
      | some url =>
        cases hh : body.content.height with
        | none =>
          simp only [add_message, h1, h2, hu, hh, if_true, if_false,
            Bool.false_eq_true, Prod.mk.injEq] at h
          exact h.2.symm
        | some height =>
          cases hw : body.content.width with
          | none =>
            simp only [add_message, h1, h2, hu, hh, hw, if_true, if_false,
              Bool.false_eq_true, Prod.mk.injEq] at h
            exact h.2.symm
          | some width => simp [add_message, h1, h2, hu, hh, hw] at h
    · by_cases h3 : (body.content.type == "video") = true
      · cases hu : body.content.url with
        | none =>
          simp only [add_message, h1, h2, h3, hu, if_true, if_false,
            Bool.false_eq_true, Prod.mk.injEq] at h
          exact h.2.symm
        | some url =>
          cases hs : body.content.source with
          | none =>
            simp only [add_message, h1, h2, h3, hu, hs, if_true, if_false,
              Bool.false_eq_true, Prod.mk.injEq] at h
            exact h.2.symm
          | some source => simp [add_message, h1, h2, h3, hu, hs] at h
      · simp only [add_message, h1, h2, h3, if_true, if_false,
          Bool.false_eq_true, Prod.mk.injEq] at h
        exact h.2.symm

/-! ### Claim theorems -/

/-- C2: the spec says a malformed authorization header (wrong scheme,
missing token, absent header) makes `authenticate` return false without
raising.  The code violates this: a header that does not split into
exactly two words — here the scheme word `"Bearer"` alone, with no
token — makes `auth_type, token = auth.split()` raise `ValueError`
instead of returning false. -/
theorem C2_authenticate_raises_on_tokenless_header :
    authenticate (initDB [] []) 0 (some "Bearer") =
      Except.error PyError.valueError ∧
    authenticate (initDB [] []) 0 (some "Bearer") ≠ Except.ok false :=
  ⟨rfl, fun h => by rw [show authenticate (initDB [] []) 0 (some "Bearer") =
      Except.error PyError.valueError from rfl] at h; exact Except.noConfusion h⟩

/-- C3: each successful insert bumps its collection's counter by one,
and the operation commits exactly when the post-insert counter is
divisible by `commit_frequency`, whose default is 20; the returned
`did_commit` flag is determined by that divisibility test alone, so no
commit happens at any other time. -/
theorem C3_commit_every_twenty (db : DB) (user token : String)
    (body : MsgBody) (ts : String) :
    commit_frequency = 20 ∧
    (∀ id flag db', add_user db user token = (.ok (id, flag), db') →
        db'.user_count = db.user_count + 1 ∧
        flag = ((db.user_count + 1) % commit_frequency == 0)) ∧
    (∀ id ts' flag db', add_message db body ts = (.ok (id, ts', flag), db') →
        db'.msg_count = db.msg_count + 1 ∧
        flag = ((db.msg_count + 1) % commit_frequency == 0)) := by
  refine ⟨rfl, ?_, ?_⟩
  · intro id flag db' h
    obtain ⟨-, -, hflag, hdb⟩ := add_user_ok db user token id flag db' h
    subst hdb
    exact ⟨rfl, hflag⟩
  · intro id ts' flag db' h
    obtain ⟨-, -, hflag, -, -, hcnt, -⟩ :=
      add_message_ok db body ts id ts' flag db' h
    exact ⟨hcnt, hflag⟩

theorem C3_witness :
    ((add_user (initDB [] []) "a" "t").2.user_count = 1 ∧
      false = ((1 % commit_frequency : Nat) == 0)) ∧
    ((add_message (initDB [] [])
        ⟨0, 0, ⟨"text", some "hi", none, none, none, none⟩⟩ "ts").2.msg_count = 1 ∧
      false = ((1 % commit_frequency : Nat) == 0)) := by
  have h := C3_commit_every_twenty (initDB [] []) "a" "t"
    ⟨0, 0, ⟨"text", some "hi", none, none, none, none⟩⟩ "ts"
  exact ⟨h.2.1 0 false _ rfl, h.2.2 0 "ts" false _ rfl⟩

/-- C4: creating a user whose username is already present fails with the
duplicate-user error (the UNIQUE-violation `IntegrityError`) and leaves
the store unchanged — no row is inserted and `user_count` (the next
assignable id) does not increase. -/
theorem C4_duplicate_user_rejected (db : DB) (user token : String)
    (h : db.users.any (fun r => r.username == user) = true) :
    add_user db user token = (Except.error PyError.integrityError, db) := by
  simp [add_user, h]

theorem C4_witness :
    add_user (initDB [⟨0, "alice", "t0"⟩] []) "alice" "t1" =
      (Except.error PyError.integrityError, initDB [⟨0, "alice", "t0"⟩] []) :=
  C4_duplicate_user_rejected (initDB [⟨0, "alice", "t0"⟩] []) "alice" "t1"
    (by decide)

/-- C8: on a store with no user of the given username, `add_user`
assigns the current `user_count` as id, and an immediate `user_lookup`
with the same credentials returns exactly that id paired with the
token; moreover, on any store, `user_lookup` returns `none` iff no
stored row matches both the username and the token. -/
theorem C8_create_then_lookup (db : DB) (user token : String)
    (hfresh : ∀ r ∈ db.users, r.username ≠ user) :
    (∀ id flag db', add_user db user token = (.ok (id, flag), db') →
        id = db.user_count ∧
        user_lookup db' user token = some (id, token)) ∧
    (∀ (db₀ : DB) (a b : String),
        user_lookup db₀ a b = none ↔
          ∀ r ∈ db₀.users, ¬(r.username = a ∧ r.auth_token = b)) := by
  constructor
  · intro id flag db' h
    obtain ⟨-, hid, -, hdb⟩ := add_user_ok db user token id flag db' h
    subst hdb
    refine ⟨hid, ?_⟩
    have hnone : db.users.find?
        (fun r => r.username == user && r.auth_token == token) = none := by
      rw [List.find?_eq_none]
      intro r hr
      simp [hfresh r hr]
    simp [user_lookup, List.find?_append, hnone, hid]
  · intro db₀ a b
    simp [user_lookup, List.find?_eq_none]

theorem C8_witness :
    (0 = (initDB [] []).user_count ∧
      user_lookup (add_user (initDB [] []) "alice" "tok").2 "alice" "tok" =
        some (0, "tok")) ∧
    (user_lookup (initDB [] []) "bob" "x" = none ↔
      ∀ r ∈ (initDB [] []).users, ¬(r.username = "bob" ∧ r.auth_token = "x")) := by
  have h := C8_create_then_lookup (initDB [] []) "alice" "tok" (by simp [initDB])
  exact ⟨h.1 0 false _ rfl, h.2 (initDB [] []) "bob" "x"⟩

/-- C5 counterexample: the claim quantifies over every registered user
and every stored token, but a stored token containing a space (tokens
are arbitrary strings at the store layer) makes
`authenticate(id, "Bearer " + t)` raise `ValueError` from the two-way
`auth.split()` unpacking instead of returning true. -/
theorem C5_counterexample :
    authenticate (initDB [⟨0, "alice", "a b"⟩] []) 0
        (some ("Bearer " ++ "a b")) = Except.error PyError.valueError ∧
    Except.error PyError.valueError ≠ (Except.ok true : Except PyError Bool) :=
  ⟨rfl, fun h => Except.noConfusion h⟩

/-- C5 (amended): for a registered user id whose stored token is a
single nonempty whitespace-free word, `authenticate` accepts exactly
`"Bearer <token>"` (scheme case-insensitive), rejects a wrong word
token, a `Basic` scheme, and an absent header; and for an unknown user
id it rejects an absent header and any header that splits into exactly
two words (headers that do not split into two words raise instead). -/
theorem C5_authenticate_tokens (db : DB) (id u : Nat) (row : UserRow)
    (t' s a b : String)
    (hrow : findUser db id = some row)
    (htok : isWord row.auth_token = true) :
    authenticate db id (some ("Bearer " ++ row.auth_token)) = .ok true ∧
    (isWord t' = true → t' ≠ row.auth_token →
      authenticate db id (some ("Bearer " ++ t')) = .ok false) ∧
    authenticate db id (some ("Basic " ++ row.auth_token)) = .ok false ∧
    authenticate db id (some ("bEaReR " ++ row.auth_token)) = .ok true ∧
    authenticate db id none = .ok false ∧
    (findUser db u = none → pySplit s = [a, b] →
      authenticate db u (some s) = .ok false) ∧
    authenticate db u none = .ok false := by
  have hBearer : isWord "Bearer" = true := by decide
  have hb : (pyLower "Bearer" != "bearer") = false := by decide
  have e1 : pySplit ("Bearer " ++ row.auth_token) =
      ["Bearer", row.auth_token] := by
    rw [show ("Bearer " ++ row.auth_token) =
        "Bearer" ++ " " ++ row.auth_token from rfl]
    exact pySplit_scheme_word _ _ hBearer htok
  refine ⟨?_, ?_, ?_, ?_, rfl, ?_, rfl⟩
  · simp [authenticate, e1, hb, hrow]
  · intro hw' hne
    have e2 : pySplit ("Bearer " ++ t') = ["Bearer", t'] := by
      rw [show ("Bearer " ++ t') = "Bearer" ++ " " ++ t' from rfl]
      exact pySplit_scheme_word _ _ hBearer hw'
    have hneq : (row.auth_token == t') = false :=
      beq_eq_false_iff_ne.mpr (fun hh => hne hh.symm)
    simp [authenticate, e2, hb, hrow, hneq]
  · have e3 : pySplit ("Basic " ++ row.auth_token) =
        ["Basic", row.auth_token] := by
      rw [show ("Basic " ++ row.auth_token) =
          "Basic" ++ " " ++ row.auth_token from rfl]
      exact pySplit_scheme_word _ _ (by decide) htok
    have hb3 : (pyLower "Basic" != "bearer") = true := by decide
    simp [authenticate, e3, hb3]
  · have e4 : pySplit ("bEaReR " ++ row.auth_token) =
        ["bEaReR", row.auth_token] := by
      rw [show ("bEaReR " ++ row.auth_token) =
          "bEaReR" ++ " " ++ row.auth_token from rfl]
      exact pySplit_scheme_word _ _ (by decide) htok
    have hb4 : (pyLower "bEaReR" != "bearer") = false := by decide
    simp [authenticate, e4, hb4, hrow]
  · intro hu hsp
    simp [authenticate, hsp, hu, ite_self]

theorem C5_witness :
    authenticate (initDB [⟨0, "alice", "tok"⟩] []) 0
        (some ("Bearer " ++ "tok")) = .ok true ∧
    authenticate (initDB [⟨0, "alice", "tok"⟩] []) 0
        (some ("Bearer " ++ "bad")) = .ok false ∧
    authenticate (initDB [⟨0, "alice", "tok"⟩] []) 0
        (some ("Basic " ++ "tok")) = .ok false ∧
    authenticate (initDB [⟨0, "alice", "tok"⟩] []) 0
        (some ("bEaReR " ++ "tok")) = .ok true ∧
    authenticate (initDB [⟨0, "alice", "tok"⟩] []) 0 none = .ok false ∧
    authenticate (initDB [⟨0, "alice", "tok"⟩] []) 7
        (some "Bearer zzz") = .ok false ∧
    authenticate (initDB [⟨0, "alice", "tok"⟩] []) 7 none = .ok false := by
  have h := C5_authenticate_tokens (initDB [⟨0, "alice", "tok"⟩] []) 0 7
    ⟨0, "alice", "tok"⟩ "bad" "Bearer zzz" "Bearer" "zzz" (by decide) (by decide)
  exact ⟨h.1, h.2.1 (by decide) (by decide), h.2.2.1, h.2.2.2.1,
    h.2.2.2.2.1, h.2.2.2.2.2.1 (by decide) (by decide), h.2.2.2.2.2.2⟩

/-! ### Listing messages (C1, C6) -/

/-- A stored row carries one of the three closed content variants — the
invariant every row inserted by `add_message` satisfies, and which the
`assert(msg_type == "video")` in the parsing loop relies on. -/
def typeOk (m : MsgRow) : Bool :=
  m.msg_type == "text" || m.msg_type == "image" || m.msg_type == "video"

/-- Total rendering of a well-formed row into a response entry (equal
to what the parsing loop produces on rows satisfying `typeOk`). -/
def renderRow (m : MsgRow) : ParsedMsg :=
  if m.msg_type == "text" then
    ⟨m.msg_id, m.timestamp, m.sender, m.recipient, .text m.msg_text⟩
  else if m.msg_type == "image" then
    ⟨m.msg_id, m.timestamp, m.sender, m.recipient,
     .image m.url m.img_height m.img_width⟩
  else
    ⟨m.msg_id, m.timestamp, m.sender, m.recipient,
     .video m.url m.vid_source⟩

theorem renderRow_id (m : MsgRow) : (renderRow m).id = m.msg_id := by
  unfold renderRow
  split
  · rfl
  · split
    · rfl
    · rfl

theorem parseRow_ok (m : MsgRow) (h : typeOk m = true) :
    parseRow m = .ok (renderRow m) := by
  by_cases h1 : (m.msg_type == "text") = true
  · simp [parseRow, renderRow, h1]
  · by_cases h2 : (m.msg_type == "image") = true
    · simp [parseRow, renderRow, h1, h2]
    · have h3 : (m.msg_type == "video") = true := by
        simp [typeOk, h1, h2] at h
        simp [h]
      simp [parseRow, renderRow, h1, h2, h3]

theorem mapM_parseRow (l : List MsgRow) (h : ∀ m ∈ l, typeOk m = true) :
    l.mapM parseRow = Except.ok (l.map renderRow) := by
  induction l with
  | nil => rfl
  | cons m ms ih =>
    rw [List.mapM_cons, parseRow_ok m (h m (List.mem_cons_self m ms)),
      ih (fun x hx => h x (List.mem_cons_of_mem m hx))]
    rfl

/-- C1: on a store whose rows carry the three closed content variants,
`get_messages recipient start limit` succeeds and returns exactly the
renderings of the stored rows whose recipient matches, in insertion
order, skipping the first `start` matches and keeping at most `limit`;
`start` beyond the number of matches and `limit = 0` both give the
empty sequence, every returned entry comes from a matching stored row,
the returned ids are the ids of those rows in order, and insertion
order coincides with ascending id order whenever the stored ids are
ascending. -/
theorem C1_list_messages (db : DB) (recipient : Int) (start limit : Nat)
    (hwf : ∀ m ∈ db.messages, typeOk m = true) :
    ∃ L, get_messages db recipient start limit = .ok L ∧
      L = ((((db.messages.filter
              (fun m => m.recipient == recipient)).drop start).take
                limit).map renderRow) ∧
      L.length ≤ limit ∧
      (limit = 0 → L = []) ∧
      ((db.messages.filter
          (fun m => m.recipient == recipient)).length ≤ start → L = []) ∧
      (∀ p ∈ L, ∃ m, m ∈ db.messages ∧ m.recipient = recipient ∧
          p = renderRow m) ∧
      L.map (fun p => p.id) =
        ((((db.messages.filter
              (fun m => m.recipient == recipient)).drop start).take
                limit).map (fun m => m.msg_id)) ∧
      ((db.messages.map (fun m => m.msg_id)).Pairwise (· < ·) →
        (L.map (fun p => p.id)).Pairwise (· < ·)) := by
  have hsubmem : ∀ m ∈ (((db.messages.filter
      (fun m => m.recipient == recipient)).drop start).take limit),
      m ∈ db.messages := by
    intro m hm
    exact List.mem_of_mem_filter
      (List.mem_of_mem_drop (List.mem_of_mem_take hm))
  have hMapM := mapM_parseRow _ (fun m hm => hwf m (hsubmem m hm))
  refine ⟨_, hMapM, rfl, ?_, ?_, ?_, ?_, ?_, ?_⟩
  · rw [List.length_map]
    exact List.length_take_le limit _
  · intro h
    subst h
    simp
  · intro h
    rw [List.drop_eq_nil_of_le h]
    simp
  · intro p hp
    obtain ⟨m, hm, hpm⟩ := List.mem_map.mp hp
    refine ⟨m, hsubmem m hm, ?_, hpm.symm⟩
    have := (List.mem_filter.mp
      (List.mem_of_mem_drop (List.mem_of_mem_take hm))).2
    exact eq_of_beq this
  · rw [List.map_map]
    exact List.map_congr_left (fun m _ => renderRow_id m)
  · intro hp
    rw [List.map_map]
    have hcomp : ((fun p : ParsedMsg => p.id) ∘ renderRow) =
        (fun m : MsgRow => m.msg_id) := funext renderRow_id
    rw [hcomp]
    have hsub : (((db.messages.filter
        (fun m => m.recipient == recipient)).drop start).take limit).Sublist
          db.messages :=
      ((List.take_sublist _ _).trans (List.drop_sublist _ _)).trans
        (List.filter_sublist _)
    exact hp.sublist (hsub.map (fun m => m.msg_id))

/-- Concrete three-row store used to witness C1: messages 0 and 2 are
addressed to recipient 0, message 1 to recipient 1. -/
def dbC1 : DB :=
  initDB []
    [⟨0, 5, 0, "text", some "m0", none, none, none, none, "t0"⟩,
     ⟨1, 5, 1, "image", none, some 2, some 3, some "u", none, "t1"⟩,
     ⟨2, 5, 0, "video", none, none, none, some "u", some "s", "t2"⟩]

theorem C1_witness :
    ∃ L, get_messages dbC1 0 1 1 = .ok L ∧
      L = ((((dbC1.messages.filter
              (fun m => m.recipient == 0)).drop 1).take 1).map renderRow) ∧
      L.length ≤ 1 ∧
      ((1 : Nat) = 0 → L = []) ∧
      ((dbC1.messages.filter
          (fun m => m.recipient == 0)).length ≤ 1 → L = []) ∧
      (∀ p ∈ L, ∃ m, m ∈ dbC1.messages ∧ m.recipient = 0 ∧
          p = renderRow m) ∧
      L.map (fun p => p.id) =
        ((((dbC1.messages.filter
              (fun m => m.recipient == 0)).drop 1).take 1).map
                (fun m => m.msg_id)) ∧
      ((dbC1.messages.map (fun m => m.msg_id)).Pairwise (· < ·) →
        (L.map (fun p => p.id)).Pairwise (· < ·)) :=
  C1_list_messages dbC1 0 1 1 (by decide)

/-- C6 (amended): appending a text message and immediately listing the
recipient's messages with `start=0, limit=100` includes the new entry —
with its assigned id, the sender, the recipient, the insertion
timestamp and `content = text <text>` — provided the recipient has
fewer than 100 stored messages before the append (otherwise the new
row lies beyond the first 100 matches and `LIMIT 0, 100` cuts it off);
no flush is involved: the read sees the in-process table directly. -/
theorem C6_send_then_list (db : DB) (sender recipient : Int)
    (text ts : String)
    (hwf : ∀ m ∈ db.messages, typeOk m = true)
    (hlt : (db.messages.filter
        (fun m => m.recipient == recipient)).length < 100) :
    ∀ id ts' flag db',
      add_message db
          ⟨sender, recipient, ⟨"text", some text, none, none, none, none⟩⟩ ts
        = (.ok (id, ts', flag), db') →
      ts' = ts ∧
      ∃ L, get_messages db' recipient 0 100 = .ok L ∧
        (⟨id, ts, sender, recipient, .text (some text)⟩ : ParsedMsg) ∈ L := by
  intro id ts' flag db' h
  rw [add_message_text db _ ts text rfl rfl, Prod.mk.injEq,
    Except.ok.injEq, Prod.mk.injEq, Prod.mk.injEq] at h
  obtain ⟨⟨hid, hts, -⟩, hdb⟩ := h
  subst hdb
  subst hid
  subst hts
  refine ⟨rfl, ?_⟩
  set row : MsgRow := ⟨db.msg_count, sender, recipient, "text",
    some text, none, none, none, none, ts⟩ with hrow
  set F := db.messages.filter (fun m => m.recipient == recipient) with hF
  have hfilter : (db.messages ++ [row]).filter
      (fun m => m.recipient == recipient) = F ++ [row] := by
    rw [List.filter_append]
    simp [hrow]
  have hlen : (F ++ [row]).length ≤ 100 := by
    rw [List.length_append]
    simp only [List.length_cons, List.length_nil]
    omega
  have htake : (F ++ [row]).take 100 = F ++ [row] :=
    List.take_of_length_le hlen
  have hwf' : ∀ m ∈ F ++ [row], typeOk m = true := by
    intro m hm
    rcases List.mem_append.mp hm with h1 | h2
    · exact hwf m (List.mem_of_mem_filter h1)
    · rw [List.mem_singleton.mp h2]
      rfl
  refine ⟨(F ++ [row]).map renderRow, ?_, ?_⟩
  · show ((((db.messages ++ [row]).filter
        (fun m => m.recipient == recipient)).drop 0).take 100).mapM parseRow
      = Except.ok ((F ++ [row]).map renderRow)
    rw [List.drop_zero, hfilter, htake]
    exact mapM_parseRow _ hwf'
  · rw [List.map_append]
    refine List.mem_append_right _ ?_
    show _ ∈ [renderRow row]
    rw [List.mem_singleton]
    rfl

theorem C6_witness :
    "ts" = "ts" ∧
    ∃ L, get_messages
        (add_message (initDB [] [])
          ⟨1, 0, ⟨"text", some "hi", none, none, none, none⟩⟩ "ts").2 0 0 100
      = .ok L ∧
      (⟨0, "ts", 1, 0, .text (some "hi")⟩ : ParsedMsg) ∈ L := by
  have h := C6_send_then_list (initDB [] []) 1 0 "hi" "ts"
    (by decide) (by decide)
  exact h 0 "ts" false _ rfl

set_option maxRecDepth 20000 in
/-- C6 counterexample: against a store already holding 100 messages for
the recipient, the freshly appended message (id 100) succeeds but is
NOT included in an immediate `list_messages(recipient, 0, 100)`: the
listing returns the first 100 matches only. -/
theorem C6_counterexample :
    (add_message
        (initDB []
          (List.replicate 100 ⟨0, 1, 0, "text", some "x", none, none, none, none, "t"⟩))
        ⟨1, 0, ⟨"text", some "new", none, none, none, none⟩⟩ "ts").1
      = Except.ok (100, "ts", false) ∧
    get_messages
        (add_message
          (initDB []
            (List.replicate 100 ⟨0, 1, 0, "text", some "x", none, none, none, none, "t"⟩))
          ⟨1, 0, ⟨"text", some "new", none, none, none, none⟩⟩ "ts").2 0 0 100
      = Except.ok
          (List.replicate 100 ⟨0, "t", 1, 0, Content.text (some "x")⟩) ∧
    (⟨100, "ts", 1, 0, Content.text (some "new")⟩ : ParsedMsg) ∉
      List.replicate 100 (⟨0, "t", 1, 0, Content.text (some "x")⟩ : ParsedMsg) := by
  refine ⟨rfl, rfl, by decide⟩

/-- C7 counterexample: a `text` message whose payload is missing the
required `text` field does fail and leave the store unchanged, but it
fails with `KeyError` (the missing dictionary key), not with the
"Invalid message type" failure the claim names for missing fields. -/
theorem C7_counterexample :
    add_message (initDB [] [])
        ⟨0, 0, ⟨"text", none, none, none, none, none⟩⟩ "ts"
      = (Except.error PyError.keyError, initDB [] []) ∧
    PyError.keyError ≠ PyError.invalidMessageType :=
  ⟨rfl, fun h => PyError.noConfusion h⟩

/-- C7 (amended): `add_message` fails with the explicit
`InvalidMessageType` exception when the content type is none of
`text`/`image`/`video`, and fails with `KeyError` when the type is
recognized but a required payload field is absent; in every failure
case the store state is unchanged — no row inserted, counter not
advanced. -/
theorem C7_invalid_message_rejected (db : DB) (body : MsgBody)
    (ts : String) :
    ((body.content.type == "text") = false →
     (body.content.type == "image") = false →
     (body.content.type == "video") = false →
      add_message db body ts = (.error .invalidMessageType, db)) ∧
    ((body.content.type == "text") = true → body.content.text = none →
      add_message db body ts = (.error .keyError, db)) ∧
    ((body.content.type == "image") = true →
      (body.content.url = none ∨ body.content.height = none ∨
        body.content.width = none) →
      add_message db body ts = (.error .keyError, db)) ∧
    ((body.content.type == "video") = true →
      (body.content.url = none ∨ body.content.source = none) →
      add_message db body ts = (.error .keyError, db)) ∧
    (∀ e db', add_message db body ts = (.error e, db') → db' = db) := by
  refine ⟨?_, ?_, ?_, ?_, ?_⟩
  · intro h1 h2 h3
    simp [add_message, h1, h2, h3]
  · intro h1 htx
    simp [add_message, h1, htx]
  · intro h2 hdisj
    have h1 : (body.content.type == "text") = false := by
      rw [eq_of_beq h2]
      decide
    cases hu : body.content.url with
    | none => simp [add_message, h1, h2, hu]
    | some u =>
      cases hh : body.content.height with
      | none => simp [add_message, h1, h2, hu, hh]
      | some hg =>
        cases hw : body.content.width with
        | none => simp [add_message, h1, h2, hu, hh, hw]
        | some w =>
          rcases hdisj with hx | hx | hx
          · rw [hu] at hx; exact Option.noConfusion hx
          · rw [hh] at hx; exact Option.noConfusion hx
          · rw [hw] at hx; exact Option.noConfusion hx
  · intro h3 hdisj
    have h1 : (body.content.type == "text") = false := by
      rw [eq_of_beq h3]
      decide
    have h2 : (body.content.type == "image") = false := by
      rw [eq_of_beq h3]
      decide
    cases hu : body.content.url with
    | none => simp [add_message, h1, h2, h3, hu]
    | some u =>
      cases hs : body.content.source with
      | none => simp [add_message, h1, h2, h3, hu, hs]
      | some s =>
        rcases hdisj with hx | hx
        · rw [hu] at hx; exact Option.noConfusion hx
        · rw [hs] at hx; exact Option.noConfusion hx
  · intro e db' h
    exact add_message_err db body ts e db' h

theorem C7_witness :
    add_message (initDB [] [])
        ⟨0, 0, ⟨"audio", some "x", some "u", some 1, some 2, some "s"⟩⟩ "ts"
      = (Except.error PyError.invalidMessageType, initDB [] []) ∧
    add_message (initDB [] [])
        ⟨0, 0, ⟨"text", none, none, none, none, none⟩⟩ "ts"
      = (Except.error PyError.keyError, initDB [] []) ∧
    add_message (initDB [] [])
        ⟨0, 0, ⟨"image", none, some "u", none, some 2, none⟩⟩ "ts"
      = (Except.error PyError.keyError, initDB [] []) ∧
    add_message (initDB [] [])
        ⟨0, 0, ⟨"video", none, some "u", none, none, none⟩⟩ "ts"
      = (Except.error PyError.keyError, initDB [] []) := by
  refine ⟨?_, ?_, ?_, ?_⟩
  · exact (C7_invalid_message_rejected (initDB [] [])
      ⟨0, 0, ⟨"audio", some "x", some "u", some 1, some 2, some "s"⟩⟩ "ts").1
      (by decide) (by decide) (by decide)
  · exact (C7_invalid_message_rejected (initDB [] [])
      ⟨0, 0, ⟨"text", none, none, none, none, none⟩⟩ "ts").2.1
      (by decide) rfl
  · exact (C7_invalid_message_rejected (initDB [] [])
      ⟨0, 0, ⟨"image", none, some "u", none, some 2, none⟩⟩ "ts").2.2.1
      (by decide) (Or.inr (Or.inl rfl))
  · exact (C7_invalid_message_rejected (initDB [] [])
      ⟨0, 0, ⟨"video", none, some "u", none, none, none⟩⟩ "ts").2.2.2.1
      (by decide) (Or.inr rfl)

/-! ### Id assignment across operation sequences (C9) -/

/-- Run a sequence of `add_user` calls against the store, recording the
id assigned by each call (`none` for a failed call). -/
def runAddUsers : DB → List (String × String) → List (Option Nat) × DB
  | db, [] => ([], db)
  | db, (u, t) :: rest =>
    match add_user db u t with
    | (Except.ok (id, _), db1) =>
      let r := runAddUsers db1 rest
      (some id :: r.1, r.2)
    | (Except.error _, db1) =>
      let r := runAddUsers db1 rest
      (none :: r.1, r.2)

/-- Run a sequence of `add_message` calls (body and timestamp each),
recording the id assigned by each call (`none` for a failed call). -/
def runAddMessages : DB → List (MsgBody × String) → List (Option Nat) × DB
  | db, [] => ([], db)
  | db, (b, ts) :: rest =>
    match add_message db b ts with
    | (Except.ok (id, _, _), db1) =>
      let r := runAddMessages db1 rest
      (some id :: r.1, r.2)
    | (Except.error _, db1) =>
      let r := runAddMessages db1 rest
      (none :: r.1, r.2)

theorem runAddUsers_ids (ps : List (String × String)) : ∀ db : DB,
    (runAddUsers db ps).1.reduceOption =
      List.range' db.user_count (runAddUsers db ps).1.reduceOption.length ∧
    (runAddUsers db ps).2.user_count =
      db.user_count + (runAddUsers db ps).1.reduceOption.length := by
  induction ps with
  | nil => intro db; simp [runAddUsers]
  | cons p rest ih =>
    intro db
    obtain ⟨u, t⟩ := p
    rcases hcall : add_user db u t with ⟨res, db1⟩
    cases res with
    | ok v =>
      obtain ⟨id, flag⟩ := v
      obtain ⟨-, hid, -, hdb⟩ := add_user_ok db u t id flag db1 hcall
      have hcnt : db1.user_count = db.user_count + 1 := by rw [hdb]
      have h1 := (ih db1).1
      have h2 := (ih db1).2
      rw [hcnt] at h1 h2
      simp only [runAddUsers, hcall, List.reduceOption_cons_of_some,
        List.length_cons]
      constructor
      · rw [List.range'_succ db.user_count _ 1, hid, h1]
        simp [List.length_range']
      · rw [h2]
        omega
    | error e =>
      have hdb : db1 = db := (add_user_err db u t e db1 hcall).2.2
      subst hdb
      simp only [runAddUsers, hcall, List.reduceOption_cons_of_none]
      exact ih db1

theorem runAddMessages_ids (bs : List (MsgBody × String)) : ∀ db : DB,
    (runAddMessages db bs).1.reduceOption =
      List.range' db.msg_count (runAddMessages db bs).1.reduceOption.length ∧
    (runAddMessages db bs).2.msg_count =
      db.msg_count + (runAddMessages db bs).1.reduceOption.length := by
  induction bs with
  | nil => intro db; simp [runAddMessages]
  | cons p rest ih =>
    intro db
    obtain ⟨b, ts⟩ := p
    rcases hcall : add_message db b ts with ⟨res, db1⟩
    cases res with
    | ok v =>
      obtain ⟨id, ts', flag⟩ := v
      obtain ⟨hid, -, -, -, -, hcnt, -⟩ :=
        add_message_ok db b ts id ts' flag db1 hcall
      have h1 := (ih db1).1
      have h2 := (ih db1).2
      rw [hcnt] at h1 h2
      simp only [runAddMessages, hcall, List.reduceOption_cons_of_some,
        List.length_cons]
      constructor
      · rw [List.range'_succ db.msg_count _ 1, hid, h1]
        simp [List.length_range']
      · rw [h2]
        omega
    | error e =>
      have hdb : db1 = db := add_message_err db b ts e db1 hcall
      subst hdb
      simp only [runAddMessages, hcall, List.reduceOption_cons_of_none]
      exact ih db1

/-- C9: the id counters are seeded at startup by counting existing rows,
and across any sequence of operations the ids assigned by the
successful inserts are exactly the consecutive integers starting at the
initial count — strictly increasing in creation/send order, unique, and
never reused — with each collection's counter advanced by exactly the
number of successful inserts (commit timing plays no role: the counter
is in memory). -/
theorem C9_sequential_ids (us : List UserRow) (ms : List MsgRow) (db : DB)
    (ps : List (String × String)) (bs : List (MsgBody × String)) :
    (initDB us ms).user_count = us.length ∧
    (initDB us ms).msg_count = ms.length ∧
    (runAddUsers db ps).1.reduceOption =
      List.range' db.user_count (runAddUsers db ps).1.reduceOption.length ∧
    (runAddMessages db bs).1.reduceOption =
      List.range' db.msg_count (runAddMessages db bs).1.reduceOption.length ∧
    (runAddUsers db ps).2.user_count =
      db.user_count + (runAddUsers db ps).1.reduceOption.length ∧
    (runAddMessages db bs).2.msg_count =
      db.msg_count + (runAddMessages db bs).1.reduceOption.length ∧
    (runAddUsers db ps).1.reduceOption.Pairwise (· < ·) ∧
    (runAddUsers db ps).1.reduceOption.Nodup ∧
    (runAddMessages db bs).1.reduceOption.Pairwise (· < ·) ∧
    (runAddMessages db bs).1.reduceOption.Nodup := by
  have hu := runAddUsers_ids ps db
  have hm := runAddMessages_ids bs db
  refine ⟨rfl, rfl, hu.1, hm.1, hu.2, hm.2, ?_, ?_, ?_, ?_⟩
  · rw [hu.1]; exact List.pairwise_lt_range' ..
  · rw [hu.1]; exact List.nodup_range' ..
  · rw [hm.1]; exact List.pairwise_lt_range' ..
  · rw [hm.1]; exact List.nodup_range' ..

/-! ### Token derivation and token-to-principal resolution (C10) -/

theorem handle_new_user_fresh (h : String → String) (db : DB)
    (user password : String)
    (hf : db.users.any (fun r => r.username == user) = false) :
    handle_new_user h db user password =
      .ok (db.users.length,
        { db with users := db.users ++
            [⟨db.users.length, user, newUserToken h password⟩] }) := by
  simp [handle_new_user, hf]

/-- C10: the auth token is a fixed function of `password ++ "salt"`
(md5 in the source, modelled as an arbitrary hash `h`), independent of
the username: two users created with the same password store the
identical token, `authenticate` accepts the shared bearer token for
both ids, and the handler's token-to-principal resolution maps the
shared token to the single first-inserted one of the two users. -/
theorem C10_shared_token (h : String → String) (db : DB) (u1 u2 p : String)
    (hw : isWord (newUserToken h p) = true)
    (hu1 : db.users.any (fun r => r.username == u1) = false)
    (hu2 : db.users.any (fun r => r.username == u2) = false)
    (hne : u1 ≠ u2)
    (hlow : ∀ r ∈ db.users, r.u_id < db.users.length)
    (htk : ∀ r ∈ db.users, r.auth_token ≠ newUserToken h p) :
    ∀ id1 db1 id2 db2,
      handle_new_user h db u1 p = .ok (id1, db1) →
      handle_new_user h db1 u2 p = .ok (id2, db2) →
      id1 ≠ id2 ∧
      findUser db2 id1 = some ⟨id1, u1, newUserToken h p⟩ ∧
      findUser db2 id2 = some ⟨id2, u2, newUserToken h p⟩ ∧
      authenticate db2 id1 (some ("Bearer " ++ newUserToken h p)) = .ok true ∧
      authenticate db2 id2 (some ("Bearer " ++ newUserToken h p)) = .ok true ∧
      check_authorization db2 (some ("Bearer " ++ newUserToken h p)) =
        .ok (some id1) := by
  intro id1 db1 id2 db2 heq1 heq2
  rw [handle_new_user_fresh h db u1 p hu1, Except.ok.injEq,
    Prod.mk.injEq] at heq1
  obtain ⟨hid1, hdb1⟩ := heq1
  subst hdb1
  subst hid1
  have hany : (db.users ++
      [(⟨db.users.length, u1, newUserToken h p⟩ : UserRow)]).any
        (fun r => r.username == u2) = false := by
    rw [List.any_append]
    simp only [hu2, Bool.false_or, List.any_cons, List.any_nil,
      Bool.or_false]
    exact beq_eq_false_iff_ne.mpr hne
  rw [handle_new_user_fresh h _ u2 p hany, Except.ok.injEq,
    Prod.mk.injEq] at heq2
  obtain ⟨hid2, hdb2⟩ := heq2
  subst hdb2
  subst hid2
  dsimp only at *
  have hlen1 : (db.users ++
      [(⟨db.users.length, u1, newUserToken h p⟩ : UserRow)]).length =
        db.users.length + 1 := by
    simp
  rw [hlen1]
  set t := newUserToken h p with hT
  set r1 : UserRow := ⟨db.users.length, u1, t⟩ with hr1
  set r2 : UserRow := ⟨db.users.length + 1, u2, t⟩ with hr2
  set rec2 : DB :=
    ⟨(db.users ++ [r1]) ++ [r2], db.messages, db.user_count, db.msg_count⟩
    with hrec
  have hb : (pyLower "Bearer" != "bearer") = false := by decide
  have e1 : pySplit ("Bearer " ++ t) = ["Bearer", t] := by
    rw [show ("Bearer " ++ t) = "Bearer" ++ " " ++ t from rfl]
    exact pySplit_scheme_word _ _ (by decide) hw
  have hpre1 : db.users.find? (fun r => r.u_id == db.users.length) = none := by
    rw [List.find?_eq_none]
    intro r hr
    have := hlow r hr
    simp only [beq_iff_eq]
    omega
  have hpre2 : db.users.find?
      (fun r => r.u_id == db.users.length + 1) = none := by
    rw [List.find?_eq_none]
    intro r hr
    have := hlow r hr
    simp only [beq_iff_eq]
    omega
  have hpret : db.users.find? (fun r => r.auth_token == t) = none := by
    rw [List.find?_eq_none]
    intro r hr
    simp only [beq_iff_eq]
    exact htk r hr
  have hfindU1 : findUser rec2 db.users.length = some r1 := by
    show ((db.users ++ [r1]) ++ [r2]).find?
      (fun r => r.u_id == db.users.length) = some r1
    rw [List.find?_append, List.find?_append, hpre1]
    simp [hr1]
  have hfindU2 : findUser rec2 (db.users.length + 1) = some r2 := by
    show ((db.users ++ [r1]) ++ [r2]).find?
      (fun r => r.u_id == db.users.length + 1) = some r2
    rw [List.find?_append, List.find?_append, hpre2]
    have hx : (db.users.length == db.users.length + 1) = false := by simp
    simp [hr1, hr2, hx]
  have hfindT : ((db.users ++ [r1]) ++ [r2]).find?
      (fun r => r.auth_token == t) = some r1 := by
    rw [List.find?_append, List.find?_append, hpret]
    simp [hr1]
  refine ⟨by omega, hfindU1, hfindU2, ?_, ?_, ?_⟩
  · simp [authenticate, e1, hb, hfindU1, hr1]
  · simp [authenticate, e1, hb, hfindU2, hr2]
  · have hca : check_authorization rec2 (some ("Bearer " ++ t)) =
        .ok ((rec2.users.find? (fun r => r.auth_token == t)).map
          (fun r => r.u_id)) := by
      simp [check_authorization, e1, hb]
    have hfindT2 : rec2.users.find? (fun r => r.auth_token == t) = some r1 :=
      hfindT
    show check_authorization rec2 (some ("Bearer " ++ t)) =
      .ok (some db.users.length)
    rw [hca, hfindT2]
    simp [hr1]

theorem C10_witness :
    (0 : Nat) ≠ 1 ∧
    findUser (⟨[⟨0, "alice", "tok"⟩, ⟨1, "bob", "tok"⟩], [], 0, 0⟩ : DB) 0 =
      some ⟨0, "alice", "tok"⟩ ∧
    findUser (⟨[⟨0, "alice", "tok"⟩, ⟨1, "bob", "tok"⟩], [], 0, 0⟩ : DB) 1 =
      some ⟨1, "bob", "tok"⟩ ∧
    authenticate (⟨[⟨0, "alice", "tok"⟩, ⟨1, "bob", "tok"⟩], [], 0, 0⟩ : DB) 0
      (some ("Bearer " ++ "tok")) = .ok true ∧
    authenticate (⟨[⟨0, "alice", "tok"⟩, ⟨1, "bob", "tok"⟩], [], 0, 0⟩ : DB) 1
      (some ("Bearer " ++ "tok")) = .ok true ∧
    check_authorization
      (⟨[⟨0, "alice", "tok"⟩, ⟨1, "bob", "tok"⟩], [], 0, 0⟩ : DB)
      (some ("Bearer " ++ "tok")) = .ok (some 0) := by
  have h := C10_shared_token (fun _ => "tok") (initDB [] []) "alice" "bob" "pw"
    (by decide) (by decide) (by decide) (by decide) (by decide) (by decide)
  exact h 0 ⟨[⟨0, "alice", "tok"⟩], [], 0, 0⟩ 1
    ⟨[⟨0, "alice", "tok"⟩, ⟨1, "bob", "tok"⟩], [], 0, 0⟩ rfl rfl
